/-
Verification of the trading decision core of zvt (src/zvt/trader/trader.py):
the per-level target cache (TargetsSlot), the cross-selector ranking/limiting
policy (LimitSelectorsComparator), the consensus computation
(Trader.handle_targets_slot), signal emission (Trader.send_trading_signals),
constructor validation (Trader.__init__) and listener registration.

Numbers (scores, cash, position sizes) are modelled as rationals; timestamps
as naturals (only their ordering and identity matter to the verified code).
-/
import Mathlib

namespace ZvtTrader

/-- Modelled from the spec: the external `zvt.domain.TradingLevel` cadence enum
(spec §3 "Level": ordered enum-like value). Its members are not in the sources
under verification; only that each member carries a distinct `value` string
(the dictionary key used by `TargetsSlot`) is relied on. -/
inductive TradingLevel where
  | LEVEL_1MIN
  | LEVEL_5MIN
  | LEVEL_15MIN
  | LEVEL_30MIN
  | LEVEL_1HOUR
  | LEVEL_4HOUR
  | LEVEL_1DAY
  | LEVEL_1WEEK
deriving DecidableEq, Fintype, Repr

/-- The string value of a `TradingLevel` member, used as the dict key in
`TargetsSlot.level_map_targets`. -/
def TradingLevel.value : TradingLevel → String
  | .LEVEL_1MIN => "1m"
  | .LEVEL_5MIN => "5m"
  | .LEVEL_15MIN => "15m"
  | .LEVEL_30MIN => "30m"
  | .LEVEL_1HOUR => "1h"
  | .LEVEL_4HOUR => "4h"
  | .LEVEL_1DAY => "1d"
  | .LEVEL_1WEEK => "1wk"

theorem TradingLevel.value_injective :
    ∀ a b : TradingLevel, a.value = b.value → a = b := by decide

/-- One row of a selector's target DataFrame: columns `security_id`, `score`
(spec §3 "Target"). -/
structure Target where
  security_id : String
  score : ℚ
deriving DecidableEq, Repr

/-- A target selector as seen by the comparator (external interface, spec §6):
its `level` and its `get_targets(timestamp)` output. -/
structure Selector where
  level : TradingLevel
  get_targets : ℕ → List Target

/-- The ascending lexicographic `(score, security_id)` order used by
`df.sort_values(by=['score', 'security_id'])` in
`LimitSelectorsComparator.make_decision`. -/
def targetLE (a b : Target) : Prop :=
  a.score < b.score ∨ (a.score = b.score ∧ a.security_id ≤ b.security_id)

instance : DecidableRel targetLE := fun a b => by
  unfold targetLE; infer_instance

/-- Embeds `df.sort_values(by=['score', 'security_id'])`: sort ascending by
`(score, security_id)`.  Rows are exactly the `(security_id, score)` pairs, so
any sorting algorithm for this linear order yields the same list; insertion
sort is used. -/
def sortTargets (l : List Target) : List Target :=
  l.insertionSort targetLE

/-- Embeds the `LimitSelectorsComparator.make_decision` body for one selector whose level
matched: `if not df.empty: df = df.sort_values(...); if len(df.index) > limit:
df = df.iloc[list(range(limit)), :]`. -/
def selectorContribution (sel : Selector) (limit : ℕ) (timestamp : ℕ) : List Target :=
  let df := sel.get_targets timestamp
  if df = [] then df
  else
    let s := sortTargets df
    if limit < s.length then s.take limit else s

/-- Embeds `LimitSelectorsComparator.make_decision(timestamp, trading_level)`
(trader.py lines 37-49): loop over `self.selectors`, for each selector whose
`level` equals `trading_level` sort its targets, truncate to `self.limit` if
longer, and append to the running result. -/
def make_decision (selectors : List Selector) (limit : ℕ) (timestamp : ℕ)
    (trading_level : TradingLevel) : List Target :=
  match selectors with
  | [] => []
  | sel :: rest =>
    (if sel.level = trading_level then selectorContribution sel limit timestamp else [])
      ++ make_decision rest limit timestamp trading_level

/-- Embeds `TargetsSlot` (trader.py lines 53-64): a Python dict keyed by
`level.value`, modelled extensionally as a function to `Option`. Stored
targets are the instrument-id sets the control loop writes. -/
structure TargetsSlot where
  level_map_targets : String → Option (Finset String)

/-- Embeds `TargetsSlot.input_targets(level, targets)`:
`self.level_map_targets[level.value] = targets`. -/
def TargetsSlot.input_targets (s : TargetsSlot) (level : TradingLevel)
    (targets : Finset String) : TargetsSlot :=
  ⟨fun k => if k = level.value then some targets else s.level_map_targets k⟩

/-- Embeds `TargetsSlot.get_targets(level)`:
`return self.level_map_targets.get(level.value)`. -/
def TargetsSlot.get_targets (s : TargetsSlot) (level : TradingLevel) :
    Option (Finset String) :=
  s.level_map_targets level.value

/-- One fold step of the loop body in `Trader.handle_targets_slot`
(trader.py lines 182-191): `targets = slot.get_targets(level); if not targets:
targets = set(); if not selected: selected = targets else: selected =
selected & targets`.  `selected` starts as `None` (modelled `none`); the Python
falsiness test `if not selected` is true both for `None` and for the empty
set. -/
def consensusStep (slot : TargetsSlot) (selected : Option (Finset String))
    (level : TradingLevel) : Option (Finset String) :=
  let targets := (slot.get_targets level).getD ∅
  match selected with
  | none => some targets
  | some s => if s = ∅ then some targets else some (s ∩ targets)

/-- Embeds `Trader.handle_targets_slot(timestamp)` (trader.py lines 172-196): fold
`consensusStep` over `self.trading_level_desc` (the configured levels,
coarsest first) starting from `selected = None`; the resulting selection is
handed to `send_trading_signals`, where `None` and the empty set behave
identically, so the consensus is returned as a plain set. -/
def handle_targets_slot (slot : TargetsSlot) (trading_level_desc : List TradingLevel) :
    Finset String :=
  (trading_level_desc.foldl (consensusStep slot) none).getD ∅

/-- Signal kinds used by `Trader.send_trading_signals` (only the two long-side
members of the external `TradingSignalType` enum appear in the verified
code). -/
inductive TradingSignalType where
  | trading_signal_open_long
  | trading_signal_close_long
deriving DecidableEq, Repr

/-- The `TradingSignal` value constructed in `Trader.send_trading_signals`;
fields not passed at a construction site are `none` (spec §6 wire shape:
exactly one of `orderMoney` / `positionPct` is present). -/
structure TradingSignal where
  security_id : String
  the_timestamp : ℕ
  trading_signal_type : TradingSignalType
  trading_level : TradingLevel
  order_money : Option ℚ
  position_pct : Option ℚ
deriving DecidableEq, Repr

/-- One entry of `account['positions']` as read by `send_trading_signals`. -/
structure Position where
  security_id : String
  available_long : ℚ
deriving DecidableEq, Repr

/-- The account snapshot `self.account_service.latest_account` (external
collaborator, spec §3 "AccountSnapshot"): only `cash` and `positions` are
read. -/
structure Account where
  cash : ℚ
  positions : List Position
deriving DecidableEq, Repr

/-- Embeds `current_holdings = [position['security_id'] for position in
account['positions'] if position['available_long'] > 0]` (trader.py lines
201-202). -/
def current_holdings (account : Account) : List String :=
  (account.positions.filter (fun p => 0 < p.available_long)).map (·.security_id)

/-- Embeds `Trader.send_trading_signals(timestamp, selected)` (trader.py lines
198-233), returning the list of emitted signals in emission order (every
signal is delivered to each listener; listener dispatch itself is I/O and
out of scope).  `selected` arrives as `None` or a set; `None` and the empty
set drive the `if selected:` tests identically, so it is modelled as a
`Finset`.  Open signals: for each id in `longed = selected - set(
current_holdings)` (only when `selected` and `longed` are truthy) with
`order_money = cash * (1.0 / len(longed))`.  Close signals: for each id in
`shorted` = `set(current_holdings) - selected` if `selected` else
`set(current_holdings)`, with `position_pct = 1.0`.  Python iterates a set in
unspecified order; the model iterates each set in sorted id order (one fixed
determinization — every set-level claim is order-independent). -/
def send_trading_signals (selected : Finset String) (account : Account)
    (timestamp : ℕ) (trading_level : TradingLevel) : List TradingSignal :=
  let holdings := (current_holdings account).toFinset
  let openSignals :=
    if selected ≠ ∅ then
      let longed := selected \ holdings
      if longed ≠ ∅ then
        let position_pct : ℚ := 1 / (longed.card : ℚ)
        let order_money := account.cash * position_pct
        (longed.sort (· ≤ ·)).map (fun security_id =>
          ⟨security_id, timestamp, .trading_signal_open_long, trading_level,
            some order_money, none⟩)
      else []
    else []
  let shorted := if selected ≠ ∅ then holdings \ selected else holdings
  openSignals ++ (shorted.sort (· ≤ ·)).map (fun security_id =>
    ⟨security_id, timestamp, .trading_signal_close_long, trading_level,
      none, some 1⟩)

/-- The configuration retained by a successfully constructed `Trader` (the
fields the verified validation concerns). -/
structure TraderConfig where
  start_timestamp : ℕ
  end_timestamp : ℕ
  real_time : Bool
deriving DecidableEq, Repr

/-- The validation in `Trader.__init__` (trader.py lines 124-133): `if
start_timestamp and end_timestamp: ... else: assert False`, then `if
real_time: assert self.end_timestamp >= now_pd_timestamp()`.  A failed
`assert` raises in the constructor; this is modelled as `Except`, with `now`
the value of `now_pd_timestamp()`.  Everything after these checks in
`__init__` (account service, selectors) is construction of collaborators and
raises no configuration error. -/
def traderInit (start_timestamp end_timestamp : Option ℕ) (real_time : Bool)
    (now : ℕ) : Except String TraderConfig :=
  match start_timestamp, end_timestamp with
  | some s, some e =>
    if real_time ∧ e < now then
      .error "AssertionError: end_timestamp >= now_pd_timestamp()"
    else
      .ok ⟨s, e, real_time⟩
  | _, _ => .error "AssertionError"

/-- Embeds `Trader.add_trading_signal_listener(listener)` (trader.py lines 164-166):
`if listener not in self.trading_signal_listeners: append(listener)`. -/
def add_trading_signal_listener {α : Type} [DecidableEq α]
    (listeners : List α) (listener : α) : List α :=
  if listener ∈ listeners then listeners else listeners ++ [listener]

/-- Embeds `Trader.remove_trading_signal_listener(listener)` (trader.py lines
168-170): `if listener in self.trading_signal_listeners: remove(listener)`;
Python `list.remove` deletes the first occurrence. -/
def remove_trading_signal_listener {α : Type} [DecidableEq α]
    (listeners : List α) (listener : α) : List α :=
  if listener ∈ listeners then listeners.erase listener else listeners

/-- Reference algorithm of claim C1 / spec §4.3 step 3, written from the
spec's words: the running result starts as the coarsest level's cached set
(absent → empty) and every later level's set is intersected into it, so an
empty running intersection stays empty. -/
def consensusSpec (slot : TargetsSlot) (trading_level_desc : List TradingLevel) :
    Finset String :=
  match trading_level_desc with
  | [] => ∅
  | coarsest :: rest =>
    rest.foldl (fun acc level => acc ∩ (slot.get_targets level).getD ∅)
      ((slot.get_targets coarsest).getD ∅)

/-- Amended reference algorithm for claim C1, written from the amended claim's
words: iterating coarsest to finest over a plain running set that starts
empty, a level's cached set (absent → empty) replaces the running result
whenever the running result is empty, and is intersected into it otherwise. -/
def consensusFalsySpec (slot : TargetsSlot) (trading_level_desc : List TradingLevel) :
    Finset String :=
  trading_level_desc.foldl
    (fun acc level =>
      let targets := (slot.get_targets level).getD ∅
      if acc = ∅ then targets else acc ∩ targets) ∅

/-- Reference algorithm of claim C3, written from the claim's words:
concatenate the full scored target lists of the selectors whose level matches,
sort the whole concatenation ascending by `(score, security_id)`, and keep the
first `limit` entries when the sorted list is longer than `limit`. -/
def makeDecisionGlobalSpec (selectors : List Selector) (limit : ℕ)
    (timestamp : ℕ) (trading_level : TradingLevel) : List Target :=
  let all := (selectors.filter (fun sel => sel.level = trading_level)).flatMap
    (fun sel => sel.get_targets timestamp)
  let s := sortTargets all
  if limit < s.length then s.take limit else s

/-- Amended reference algorithm for claim C3, written from the amended claim's
words: each matching selector's list is sorted ascending by
`(score, security_id)` and truncated to `limit` individually, and the
per-selector results are concatenated in configuration order. -/
def makeDecisionPerSelectorSpec (selectors : List Selector) (limit : ℕ)
    (timestamp : ℕ) (trading_level : TradingLevel) : List Target :=
  (selectors.filter (fun sel => sel.level = trading_level)).flatMap
    (fun sel => selectorContribution sel limit timestamp)

/- Concrete instances used by counterexamples and witnesses. -/

/-- A selector at level 1-day returning the single target `("A", 1)`. -/
def selA : Selector := ⟨.LEVEL_1DAY, fun _ => [⟨"A", 1⟩]⟩

/-- A second selector at level 1-day, also returning `("A", 1)`. -/
def selA2 : Selector := ⟨.LEVEL_1DAY, fun _ => [⟨"A", 1⟩]⟩

/-- A selector at level 1-day returning `("B", 2)`. -/
def selB : Selector := ⟨.LEVEL_1DAY, fun _ => [⟨"B", 2⟩]⟩

/-- A slot with 1d → {"X"}, 1h → {"Y"}, 5m → {"X"} (and nothing else). -/
def exSlot : TargetsSlot :=
  ((TargetsSlot.mk (fun _ => none)).input_targets .LEVEL_1DAY {"X"}
    |>.input_targets .LEVEL_1HOUR {"Y"}) |>.input_targets .LEVEL_5MIN {"X"}

/-- The three levels of `exSlot`, coarsest first. -/
def exLevels : List TradingLevel := [.LEVEL_1DAY, .LEVEL_1HOUR, .LEVEL_5MIN]

end ZvtTrader

namespace ZvtTrader

/-- C6: `TargetsSlot.input_targets` always replaces, never merges: for every
slot state, level `L` and target sets `A` then `B`, after
`input_targets(L, A)` and `input_targets(L, B)`, `get_targets(L)` returns
`B`, independent of the prior contents. -/
theorem targets_slot_last_write_wins (s : TargetsSlot) (L : TradingLevel)
    (A B : Finset String) :
    (((s.input_targets L A).input_targets L B).get_targets L) = some B := by
  simp [TargetsSlot.input_targets, TargetsSlot.get_targets]

/-- C9: frame property of `TargetsSlot.input_targets`: writing level `L`
leaves every other level's entry unchanged. -/
theorem targets_slot_frame (s : TargetsSlot) (L L' : TradingLevel)
    (T : Finset String) (h : L ≠ L') :
    (s.input_targets L T).get_targets L' = s.get_targets L' := by
  have hv : L'.value ≠ L.value := fun hv => h (TradingLevel.value_injective L' L hv).symm
  simp [TargetsSlot.input_targets, TargetsSlot.get_targets, hv]

/-- Witness for `targets_slot_frame` at a concrete slot and distinct levels. -/
theorem targets_slot_frame_witness :
    (((TargetsSlot.mk (fun _ => none)).input_targets .LEVEL_1DAY {"A"}).input_targets
        .LEVEL_1HOUR {"B"}).get_targets .LEVEL_1DAY = some {"A"} := by
  rw [targets_slot_frame _ _ _ _ (by decide)]
  simp [TargetsSlot.input_targets, TargetsSlot.get_targets, TradingLevel.value]

/-- C10: listener registration is idempotent and order-preserving: adding a
present listener leaves the list unchanged, adding an absent one appends it at
the end; removing a present listener deletes one occurrence of it (the first),
and removing an absent one leaves the list unchanged. -/
theorem listener_registration {α : Type} [DecidableEq α]
    (xs : List α) (l : α) :
    (l ∈ xs → add_trading_signal_listener xs l = xs) ∧
    (l ∉ xs → add_trading_signal_listener xs l = xs ++ [l]) ∧
    (l ∈ xs → (remove_trading_signal_listener xs l).count l = xs.count l - 1 ∧
      (remove_trading_signal_listener xs l).length = xs.length - 1) ∧
    (l ∉ xs → remove_trading_signal_listener xs l = xs) := by
  refine ⟨fun h => ?_, fun h => ?_, fun h => ⟨?_, ?_⟩, fun h => ?_⟩
  · simp [add_trading_signal_listener, h]
  · simp [add_trading_signal_listener, h]
  · simp [remove_trading_signal_listener, h, List.count_erase_self]
  · simp [remove_trading_signal_listener, h, List.length_erase_of_mem h]
  · simp [remove_trading_signal_listener, h]

/-- Witness for `listener_registration` at a concrete list. -/
theorem listener_registration_witness :
    add_trading_signal_listener [1, 2] 2 = [1, 2] ∧
    add_trading_signal_listener [1, 2] 3 = [1, 2] ++ [3] ∧
    remove_trading_signal_listener [1, 2] 3 = [1, 2] := by
  refine ⟨(listener_registration [1, 2] 2).1 (by decide),
    (listener_registration [1, 2] 3).2.1 (by decide),
    (listener_registration [1, 2] 3).2.2.2 (by decide)⟩

/-- The `Option` state of the source loop and the plain-set state of the
amended reference run in lockstep: `none` and `some ∅` both behave as the
empty running result. -/
theorem consensus_foldl_commute (slot : TargetsSlot) :
    ∀ (levels : List TradingLevel) (st : Option (Finset String)),
      (levels.foldl (consensusStep slot) st).getD ∅ =
        levels.foldl
          (fun acc level =>
            let targets := (slot.get_targets level).getD ∅
            if acc = ∅ then targets else acc ∩ targets) (st.getD ∅) := by
  intro levels
  induction levels with
  | nil => intro st; rfl
  | cons l ls ih =>
    intro st
    rw [List.foldl_cons, List.foldl_cons, ih]
    congr 1
    match st with
    | none => simp [consensusStep]
    | some s =>
      by_cases hs : s = ∅ <;> simp [consensusStep, hs]

/-- C1 counterexample: with levels 1d → {"X"}, 1h → {"Y"}, 5m → {"X"}
(coarsest to finest), the running intersection {"X"} ∩ {"Y"} is empty, yet
`handle_targets_slot` yields {"X"} — the empty running result is replaced by
the next level's set — while the claimed always-intersect algorithm yields
the empty set. -/
theorem handle_targets_slot_not_global_intersection :
    handle_targets_slot exSlot exLevels = {"X"} ∧
      consensusSpec exSlot exLevels = ∅ := by decide

/-- C1 amended: iterating the configured levels coarsest to finest, each
level's cached set (absent treated as empty) replaces the running result
whenever the running result is empty or not yet set, and is intersected with
it otherwise; the tick's consensus is the final running result. -/
theorem handle_targets_slot_falsy_consensus (slot : TargetsSlot)
    (levels : List TradingLevel) :
    handle_targets_slot slot levels = consensusFalsySpec slot levels := by
  unfold handle_targets_slot consensusFalsySpec
  exact consensus_foldl_commute slot levels none

/-- C2 counterexample: two selectors at level 1-day each producing the single
target `("A", 1)`, with `limit = 1`: `make_decision` returns both rows, so the
result has 2 > `limit` entries and a duplicate instrument id. -/
theorem make_decision_exceeds_limit :
    ¬ ((make_decision [selA, selA2] 1 0 .LEVEL_1DAY).length ≤ 1 ∧
       ((make_decision [selA, selA2] 1 0 .LEVEL_1DAY).map
         Target.security_id).Nodup) := by decide

/-- Each matching selector contributes at most `limit` rows: an over-long
sorted list is truncated to `limit`, and an untruncated one already has at
most `limit` rows. -/
theorem selectorContribution_length_le (sel : Selector) (limit timestamp : ℕ) :
    (selectorContribution sel limit timestamp).length ≤ limit := by
  unfold selectorContribution
  by_cases hdf : sel.get_targets timestamp = []
  · simp [hdf]
  · simp only [hdf, if_false]
    by_cases hlen : limit < (sortTargets (sel.get_targets timestamp)).length
    · simp [hlen, List.length_take]
    · simpa [hlen] using Nat.le_of_not_lt hlen

/-- C2 amended: `make_decision` truncates per selector, so its output for a
level contains at most `limit × m` rows, where `m` is the number of configured
selectors whose level equals the queried level (duplicate instrument ids
across selectors are not removed). -/
theorem make_decision_length_bound (selectors : List Selector) (limit : ℕ)
    (timestamp : ℕ) (trading_level : TradingLevel) :
    (make_decision selectors limit timestamp trading_level).length ≤
      limit * (selectors.filter (fun sel => sel.level = trading_level)).length := by
  induction selectors with
  | nil => simp [make_decision]
  | cons sel rest ih =>
    have hc := selectorContribution_length_le sel limit timestamp
    by_cases h : sel.level = trading_level
    · simp only [make_decision, if_pos h, List.length_append]
      rw [List.filter_cons_of_pos (by simpa using h), List.length_cons, Nat.mul_succ]
      omega
    · simp only [make_decision, if_neg h, List.nil_append]
      rw [List.filter_cons_of_neg (by simpa using h)]
      exact ih

/-- C3 counterexample: selectors at level 1-day producing `("B", 2)` and
`("A", 1)` respectively, `limit = 1`: the code truncates per selector and
returns `[("B", 2), ("A", 1)]`, while the claimed algorithm (sort the
concatenation globally, then truncate) returns `[("A", 1)]`. -/
theorem make_decision_ne_global_sort :
    make_decision [selB, selA] 1 0 .LEVEL_1DAY ≠
      makeDecisionGlobalSpec [selB, selA] 1 0 .LEVEL_1DAY := by decide

/-- C3 amended: `make_decision(timestamp, level)` equals the per-selector
reference algorithm: for each configured selector whose level equals the
queried level, in configuration order, sort that selector's scored target
list ascending by `(score, instrumentId)` and keep only the first `limit`
entries if it is longer than `limit`; concatenate these per-selector
results. -/
theorem make_decision_eq_per_selector (selectors : List Selector) (limit : ℕ)
    (timestamp : ℕ) (trading_level : TradingLevel) :
    make_decision selectors limit timestamp trading_level =
      makeDecisionPerSelectorSpec selectors limit timestamp trading_level := by
  induction selectors with
  | nil => rfl
  | cons sel rest ih =>
    have hspec : makeDecisionPerSelectorSpec (sel :: rest) limit timestamp trading_level =
        (if sel.level = trading_level then selectorContribution sel limit timestamp
          else []) ++ makeDecisionPerSelectorSpec rest limit timestamp trading_level := by
      by_cases h : sel.level = trading_level <;>
        simp [makeDecisionPerSelectorSpec, List.filter_cons, h]
    simp only [make_decision]
    rw [hspec, ih]

/-- C7: configuration validation happens in the constructor: construction
fails when the start timestamp is missing or the end timestamp is missing,
and fails in real-time mode when the end timestamp is strictly earlier than
the current time; with both timestamps present and the real-time condition
met, construction succeeds (so no configuration check is deferred to
`run()`). -/
theorem trader_init_validation (s e : Option ℕ) (rt : Bool) (now : ℕ) :
    (s = none ∨ e = none → ∃ msg, traderInit s e rt now = .error msg) ∧
    (∀ sv ev, s = some sv → e = some ev → rt = true → ev < now →
      ∃ msg, traderInit s e rt now = .error msg) ∧
    (∀ sv ev, s = some sv → e = some ev → (rt = true → now ≤ ev) →
      traderInit s e rt now = .ok ⟨sv, ev, rt⟩) := by
  refine ⟨fun h => ?_, fun sv ev hs he hrt hlt => ?_, fun sv ev hs he hok => ?_⟩
  · rcases h with h | h
    · subst h; cases e <;> exact ⟨_, rfl⟩
    · subst h; cases s <;> exact ⟨_, rfl⟩
  · subst hs he hrt
    exact ⟨"AssertionError: end_timestamp >= now_pd_timestamp()",
      by simp [traderInit, hlt]⟩
  · subst hs he
    cases rt with
    | false => simp [traderInit]
    | true =>
      have := hok rfl
      simp [traderInit, Nat.not_lt.mpr this]

/-- Witness for `trader_init_validation` at concrete configurations. -/
theorem trader_init_validation_witness :
    (∃ msg, traderInit none (some 5) false 0 = .error msg) ∧
    (∃ msg, traderInit (some 1) (some 5) true 9 = .error msg) ∧
    traderInit (some 1) (some 5) true 3 = .ok ⟨1, 5, true⟩ := by
  refine ⟨(trader_init_validation none (some 5) false 0).1 (Or.inl rfl),
    (trader_init_validation (some 1) (some 5) true 9).2.1 1 5 rfl rfl rfl (by decide),
    (trader_init_validation (some 1) (some 5) true 3).2.2 1 5 rfl rfl (fun _ => by decide)⟩

/-- Characterization of the emitted signal list: a signal is emitted iff it is
the open signal of an instrument in `selected \ holdings` (carrying
`order_money = cash * (1 / |longed|)`) or the close signal of an instrument in
`holdings \ selected` (all of `holdings` if `selected` is empty), carrying
`position_pct = 1`. -/
theorem mem_send_trading_signals (selected : Finset String) (account : Account)
    (timestamp : ℕ) (lvl : TradingLevel) (sig : TradingSignal) :
    sig ∈ send_trading_signals selected account timestamp lvl ↔
      (sig.security_id ∈ selected \ (current_holdings account).toFinset ∧
        sig = ⟨sig.security_id, timestamp, .trading_signal_open_long, lvl,
          some (account.cash *
            (1 / ((selected \ (current_holdings account).toFinset).card : ℚ))),
          none⟩) ∨
      (sig.security_id ∈ (if selected = ∅ then (current_holdings account).toFinset
          else (current_holdings account).toFinset \ selected) ∧
        sig = ⟨sig.security_id, timestamp, .trading_signal_close_long, lvl,
          none, some 1⟩) := by
  by_cases hsel : selected = ∅
  · subst hsel
    simp only [send_trading_signals, ne_eq, not_true_eq_false, if_false,
      if_true, List.nil_append, List.mem_map, Finset.mem_sort,
      Finset.empty_sdiff, Finset.not_mem_empty, false_and, false_or]
    constructor
    · rintro ⟨a, ha, rfl⟩
      exact ⟨ha, rfl⟩
    · rintro ⟨ha, h⟩
      exact ⟨sig.security_id, ha, h.symm⟩
  · by_cases hlong : selected \ (current_holdings account).toFinset = ∅
    · simp only [send_trading_signals, ne_eq, hsel, not_false_eq_true, if_true,
        hlong, not_true_eq_false, if_false, List.nil_append, List.mem_map,
        Finset.mem_sort, Finset.not_mem_empty, false_and, false_or]
      constructor
      · rintro ⟨a, ha, rfl⟩
        exact ⟨ha, rfl⟩
      · rintro ⟨ha, h⟩
        exact ⟨sig.security_id, ha, h.symm⟩
    · simp only [send_trading_signals, ne_eq, hsel, hlong, not_false_eq_true,
        if_true, if_false, List.mem_append, List.mem_map, Finset.mem_sort]
      constructor
      · rintro (⟨a, ha, rfl⟩ | ⟨a, ha, rfl⟩)
        · exact Or.inl ⟨ha, rfl⟩
        · exact Or.inr ⟨ha, rfl⟩
      · rintro (⟨ha, h⟩ | ⟨ha, h⟩)
        · exact Or.inl ⟨sig.security_id, ha, h.symm⟩
        · exact Or.inr ⟨sig.security_id, ha, h.symm⟩

/-- C4: signal emission is partition-exact: with consensus `S = selected` and
long holdings `H` (positions with `available_long > 0`), the instruments that
receive an OpenLong signal are exactly `S \ H`; the instruments that receive a
CloseLong signal are exactly `H \ S` when `S` is non-empty and all of `H`
when `S` is empty; no instrument receives both in one tick. -/
theorem send_trading_signals_partition (selected : Finset String)
    (account : Account) (timestamp : ℕ) (lvl : TradingLevel) (sid : String) :
    ((∃ sig ∈ send_trading_signals selected account timestamp lvl,
        sig.trading_signal_type = .trading_signal_open_long ∧
          sig.security_id = sid) ↔
      sid ∈ selected \ (current_holdings account).toFinset) ∧
    ((∃ sig ∈ send_trading_signals selected account timestamp lvl,
        sig.trading_signal_type = .trading_signal_close_long ∧
          sig.security_id = sid) ↔
      sid ∈ (if selected = ∅ then (current_holdings account).toFinset
        else (current_holdings account).toFinset \ selected)) ∧
    ¬ ((∃ sig ∈ send_trading_signals selected account timestamp lvl,
          sig.trading_signal_type = .trading_signal_open_long ∧
            sig.security_id = sid) ∧
       (∃ sig ∈ send_trading_signals selected account timestamp lvl,
          sig.trading_signal_type = .trading_signal_close_long ∧
            sig.security_id = sid)) := by
  have hopen : (∃ sig ∈ send_trading_signals selected account timestamp lvl,
      sig.trading_signal_type = .trading_signal_open_long ∧
        sig.security_id = sid) ↔
      sid ∈ selected \ (current_holdings account).toFinset := by
    constructor
    · rintro ⟨sig, hmem, hkind, rfl⟩
      rcases (mem_send_trading_signals selected account timestamp lvl sig).mp hmem with
        ⟨ha, _⟩ | ⟨_, heq⟩
      · exact ha
      · rw [heq] at hkind
        exact absurd hkind (by simp)
    · intro ha
      refine ⟨⟨sid, timestamp, .trading_signal_open_long, lvl,
        some (account.cash *
          (1 / ((selected \ (current_holdings account).toFinset).card : ℚ))),
        none⟩, ?_, rfl, rfl⟩
      exact (mem_send_trading_signals selected account timestamp lvl _).mpr
        (Or.inl ⟨ha, rfl⟩)
  have hclose : (∃ sig ∈ send_trading_signals selected account timestamp lvl,
      sig.trading_signal_type = .trading_signal_close_long ∧
        sig.security_id = sid) ↔
      sid ∈ (if selected = ∅ then (current_holdings account).toFinset
        else (current_holdings account).toFinset \ selected) := by
    constructor
    · rintro ⟨sig, hmem, hkind, rfl⟩
      rcases (mem_send_trading_signals selected account timestamp lvl sig).mp hmem with
        ⟨_, heq⟩ | ⟨ha, _⟩
      · rw [heq] at hkind
        exact absurd hkind (by simp)
      · exact ha
    · intro ha
      refine ⟨⟨sid, timestamp, .trading_signal_close_long, lvl, none, some 1⟩,
        ?_, rfl, rfl⟩
      exact (mem_send_trading_signals selected account timestamp lvl _).mpr
        (Or.inr ⟨ha, rfl⟩)
  refine ⟨hopen, hclose, ?_⟩
  rintro ⟨h1, h2⟩
  have hs := hopen.mp h1
  have hh := hclose.mp h2
  rw [Finset.mem_sdiff] at hs
  by_cases hsel : selected = ∅
  · exact absurd hs.1 (by simp [hsel])
  · rw [if_neg hsel, Finset.mem_sdiff] at hh
    exact hs.2 hh.1

/-- Witness for `send_trading_signals_partition`: consensus {"Y"} against the
single held instrument "X" yields an OpenLong signal for "Y". -/
theorem send_trading_signals_partition_witness :
    ∃ sig ∈ send_trading_signals {"Y"} ⟨10000, [⟨"X", 1⟩]⟩ 0 .LEVEL_1DAY,
      sig.trading_signal_type = .trading_signal_open_long ∧
        sig.security_id = "Y" :=
  (send_trading_signals_partition {"Y"} ⟨10000, [⟨"X", 1⟩]⟩ 0
    .LEVEL_1DAY "Y").1.mpr (by decide)

/-- C5: equal weighting: every OpenLong signal of a tick carries
`order_money = cash / |longed|`, where `longed = selected \ holdings` is the
set of newly opened instruments. -/
theorem send_trading_signals_equal_weight (selected : Finset String)
    (account : Account) (timestamp : ℕ) (lvl : TradingLevel)
    (sig : TradingSignal)
    (hmem : sig ∈ send_trading_signals selected account timestamp lvl)
    (hopen : sig.trading_signal_type = .trading_signal_open_long) :
    sig.order_money = some (account.cash /
      ((selected \ (current_holdings account).toFinset).card : ℚ)) := by
  rcases (mem_send_trading_signals selected account timestamp lvl sig).mp hmem with
    ⟨_, heq⟩ | ⟨_, heq⟩
  · rw [heq]
    exact congrArg some (mul_one_div _ _)
  · rw [heq] at hopen
    exact absurd hopen (by simp)

/-- The concrete open signal for "Y" is emitted when the consensus is {"Y"},
the single position is "X" and cash is 10000 (shared by the witnesses
below). -/
theorem open_signal_mem_example :
    (⟨"Y", 0, .trading_signal_open_long, .LEVEL_1DAY, some 10000, none⟩ :
        TradingSignal) ∈
      send_trading_signals {"Y"} ⟨10000, [⟨"X", 1⟩]⟩ 0 .LEVEL_1DAY := by
  refine (mem_send_trading_signals {"Y"} ⟨10000, [⟨"X", 1⟩]⟩ 0 .LEVEL_1DAY
    ⟨"Y", 0, .trading_signal_open_long, .LEVEL_1DAY, some 10000, none⟩).mpr
    (Or.inl ⟨by decide, ?_⟩)
  have hcard : (({"Y"} : Finset String) \
      (current_holdings ⟨10000, [⟨"X", 1⟩]⟩).toFinset).card = 1 := by decide
  simp only [TradingSignal.mk.injEq, hcard]
  norm_num

/-- Witness for `send_trading_signals_equal_weight`: the open signal for "Y"
carries `order_money = 10000 / 1`. -/
theorem send_trading_signals_equal_weight_witness :
    (⟨"Y", 0, .trading_signal_open_long, .LEVEL_1DAY, some 10000, none⟩ :
        TradingSignal).order_money =
      some ((10000 : ℚ) /
        ((({"Y"} : Finset String) \
          (current_holdings ⟨10000, [⟨"X", 1⟩]⟩).toFinset).card : ℚ)) :=
  send_trading_signals_equal_weight {"Y"} ⟨10000, [⟨"X", 1⟩]⟩ 0 .LEVEL_1DAY
    ⟨"Y", 0, .trading_signal_open_long, .LEVEL_1DAY, some 10000, none⟩
    open_signal_mem_example rfl

/-- C8: every emitted signal carries exactly one sizing field: an OpenLong
signal has `order_money` set and no `position_pct`; a CloseLong signal has
`position_pct = 1` (close the entire position) and no `order_money`. -/
theorem signal_sizing_fields (selected : Finset String) (account : Account)
    (timestamp : ℕ) (lvl : TradingLevel) (sig : TradingSignal)
    (hmem : sig ∈ send_trading_signals selected account timestamp lvl) :
    (sig.trading_signal_type = .trading_signal_open_long →
      (∃ m, sig.order_money = some m) ∧ sig.position_pct = none) ∧
    (sig.trading_signal_type = .trading_signal_close_long →
      sig.position_pct = some 1 ∧ sig.order_money = none) := by
  rcases (mem_send_trading_signals selected account timestamp lvl sig).mp hmem with
    ⟨_, heq⟩ | ⟨_, heq⟩ <;> rw [heq] <;> simp

/-- Witness for `signal_sizing_fields` at the concrete open signal for "Y". -/
theorem signal_sizing_fields_witness :
    (∃ m, (⟨"Y", 0, .trading_signal_open_long, .LEVEL_1DAY, some 10000, none⟩ :
      TradingSignal).order_money = some m) ∧
    (⟨"Y", 0, .trading_signal_open_long, .LEVEL_1DAY, some 10000, none⟩ :
      TradingSignal).position_pct = none :=
  (signal_sizing_fields {"Y"} ⟨10000, [⟨"X", 1⟩]⟩ 0 .LEVEL_1DAY
    ⟨"Y", 0, .trading_signal_open_long, .LEVEL_1DAY, some 10000, none⟩
    open_signal_mem_example).1 rfl

end ZvtTrader
